import Mathlib

/-!
Formal model of the Outreach Dispatch Engine implemented in `app.py` and
`file.py` of the coldemailer repository: round-robin recipient allocation
across sender accounts, template rendering with a safe fallback, recipient
context resolution, per-recipient dispatch with a session-scoped
deduplication set, per-sender SMTP batch lifecycle, and run orchestration.

The two Python variants share their helpers almost verbatim; where they
differ (exception handling around SMTP setup, skipping of empty buckets,
the configuration gate) both variants are modelled separately
(`sendBatchApp` vs `sendBatchFile`, `runCampaignApp` vs `runCampaignFile`).

External effects are modelled explicitly:
* the SMTP collaborator is an oracle on each account (`connectOk`,
  `authOk`, `sendOk`) saying which transport operations succeed;
* acquiring / releasing a connection is counted (`opened` / `closed`);
* an exception escaping `send_batch_for_account` is the `aborted` flag.
-/

namespace ColdEmailer

/-- A recipient row: a mapping from column name to cell value, mirroring a
pandas row (`row[col]` / `col in row.index`).  Cell values are modelled as
the strings `str(...)` produces for them. -/
abbrev Row := List (String × String)

/-- `str(row[col])` for a column that the run selected from the dataframe;
a column absent from the row is modelled as the empty cell. -/
def getCol (row : Row) (c : String) : String := ((row.lookup c).getD "")

/-! ## Round-robin allocator

`main` builds `buckets = {i: [] for i in range(len(accounts))}` and then
runs `for i, row in enumerate(rows): buckets[i % len(accounts)].append(row)`
(identical in `app.py` and `file.py`). -/

/-- The enumerate-and-append loop: `i` is the running index, `bs` the
bucket table. -/
def allocGo {α : Type} (n : Nat) : Nat → List α → List (List α) → List (List α)
  | _, [], bs => bs
  | i, r :: rs, bs => allocGo n (i + 1) rs (bs.set (i % n) ((bs.getD (i % n) []) ++ [r]))

/-- `buckets` as produced by `main`: `n` buckets, row `i` appended to
bucket `i % n`. -/
def allocate {α : Type} (rows : List α) (n : Nat) : List (List α) :=
  allocGo n 0 rows (List.replicate n [])

/-! ## Template renderer

`safe_format(template, ctx)` is `template.format(**ctx)` wrapped in a bare
`try/except` that returns the template unchanged on any exception.  We
model `str.format` with keyword arguments restricted to what the app uses:
simple named fields `{name}` and the brace escapes `{{` / `}}`.  A field
whose name is not a key of the context raises (KeyError), an unterminated
`{`, a lone `}`, or any fancier field syntax (conversion / format spec /
nested braces, which the context keys built by the app can never match)
raises as well; `none` models the exception. -/

/-- Scanner mode: in plain text, or inside a `{...}` field whose name
characters so far are `acc` (reversed). -/
inductive FmtMode : Type
  | text : FmtMode
  | infield : List Char → FmtMode

/-- One pass of `str.format`: `none` models an exception escaping
`template.format(**ctx)`. -/
def formatAux (ctx : List (String × String)) : FmtMode → List Char → Option String
  | .text, [] => some ""
  | .text, '{' :: '{' :: cs => (formatAux ctx .text cs).map (fun s => "\x7b" ++ s)
  | .text, '}' :: '}' :: cs => (formatAux ctx .text cs).map (fun s => "\x7d" ++ s)
  | .text, '{' :: cs => formatAux ctx (.infield []) cs
  | .text, '}' :: _ => none
  | .text, c :: cs => (formatAux ctx .text cs).map (fun s => String.singleton c ++ s)
  | .infield _, [] => none
  | .infield acc, '}' :: cs =>
      match ctx.lookup (String.mk acc.reverse) with
      | some v => (formatAux ctx .text cs).map (fun s => v ++ s)
      | none => none
  | .infield acc, c :: cs => formatAux ctx (.infield (c :: acc)) cs

/-- `template.format(**ctx)`, `none` when it raises. -/
def pyFormat (template : String) (ctx : List (String × String)) : Option String :=
  formatAux ctx .text template.data

/-- `safe_format` from `app.py` (also defined inline in `file.py`'s
`build_email`): best-effort formatting, returning the original template
whenever `format` raises. -/
def safe_format (template : String) (ctx : List (String × String)) : String :=
  (pyFormat template ctx).getD template

/-- The field names a template references, `none` when the template's
placeholder syntax is malformed (so that formatting raises regardless of
the context). -/
def fieldsAux : FmtMode → List Char → Option (List String)
  | .text, [] => some []
  | .text, '{' :: '{' :: cs => fieldsAux .text cs
  | .text, '}' :: '}' :: cs => fieldsAux .text cs
  | .text, '{' :: cs => fieldsAux (.infield []) cs
  | .text, '}' :: _ => none
  | .text, _ :: cs => fieldsAux .text cs
  | .infield _, [] => none
  | .infield acc, '}' :: cs => (fieldsAux .text cs).map (fun ns => String.mk acc.reverse :: ns)
  | .infield acc, c :: cs => fieldsAux (.infield (c :: acc)) cs

/-- Referenced fields of a template. -/
def templateFields (template : String) : Option (List String) :=
  fieldsAux .text template.data

/-! ## Recipient context resolver and message construction

`build_email` (same body in both variants) builds the render context:
`context["name"] = row[name_col]` only when `name_col` is truthy and
`name_col in row.index`, symmetrically for `company_col`; no other key is
ever added. -/

/-- The `context` dict built inside `build_email`. -/
def buildContext (row : Row) (name_col company_col : Option String) :
    List (String × String) :=
  (match name_col with
    | some nc => if nc ≠ "" ∧ (row.lookup nc).isSome then [("name", getCol row nc)] else []
    | none => []) ++
  (match company_col with
    | some cc => if cc ≠ "" ∧ (row.lookup cc).isSome then [("company", getCol row cc)] else []
    | none => [])

/-- The message `build_email` returns. -/
structure EmailMessage : Type where
  fromAddr : String
  toAddr : String
  subject : String
  body : String
deriving DecidableEq, Repr

/-- `build_email` from both variants: resolve the context, then render
subject and body with `safe_format`. -/
def build_email (sender recipient : String) (subject_template body_template : String)
    (row : Row) (name_col company_col : Option String) : EmailMessage :=
  let context := buildContext row name_col company_col
  { fromAddr := sender
    toAddr := recipient
    subject := safe_format subject_template context
    body := safe_format body_template context }

/-! ## Sender sessions and dispatch

`send_batch_for_account` opens one SMTP connection, then loops over its
bucket: strip the address; skip blanks; skip addresses already in
`st.session_state.sent_this_session`; otherwise build and send the
message, and on success add the address to the set, bump
`st.session_state.emails_sent` and report progress; on a send exception
record the error and continue. -/

/-- Per-recipient result, following the spec's outcome vocabulary: the
`continue` on a blank address is `skippedEmpty`, the `continue` on a
ledger hit is `skippedDuplicate`, a caught `send_message` exception is
`failed`. -/
inductive DispatchOutcome : Type
  | sent : DispatchOutcome
  | skippedEmpty : DispatchOutcome
  | skippedDuplicate : DispatchOutcome
  | failed : DispatchOutcome
deriving DecidableEq, Repr

/-- The `st.session_state` fields the engine touches: the dedup set
`sent_this_session`, the shared counter `emails_sent`, and the run total
`total_emails`.  A fresh Streamlit session starts with an empty set and a
zero counter. -/
structure SessionState : Type where
  sent_this_session : List String
  emails_sent : Nat
  total_emails : Nat
deriving DecidableEq, Repr

/-- `st.session_state` right after the bootstrap at the top of the
script. -/
def initSession : SessionState := ⟨[], 0, 0⟩

/-- One sender account together with the SMTP oracle describing how its
external transport behaves: `connectOk` is `smtplib.SMTP(...)`
succeeding, `authOk` is `starttls` + `login` succeeding, and
`sendOk r` is `send_message` succeeding for recipient `r`. -/
structure Account : Type where
  email : String
  password : String
  smtp_server : String
  smtp_port : String
  connectOk : Bool
  authOk : Bool
  sendOk : String → Bool

/-- Python's `str.strip()`: drop leading and trailing whitespace.
(Defined over the character list so that it evaluates by kernel
reduction.) -/
def pyStrip (s : String) : String :=
  String.mk (((s.data.dropWhile Char.isWhitespace).reverse.dropWhile
    Char.isWhitespace).reverse)

/-- The stripped recipient address of a row:
`str(row[email_col]).strip()`. -/
def recipientOf (row : Row) (email_col : String) : String :=
  pyStrip (getCol row email_col)

/-- The body of the per-recipient loop in `send_batch_for_account`
(identical control flow in both variants). -/
def processRow (acct : Account) (email_col : String) (row : Row) (st : SessionState) :
    DispatchOutcome × SessionState :=
  let recipient := recipientOf row email_col
  if recipient = "" then (.skippedEmpty, st)
  else if recipient ∈ st.sent_this_session then (.skippedDuplicate, st)
  else if acct.sendOk recipient then
    (.sent, { st with
                sent_this_session := recipient :: st.sent_this_session
                emails_sent := st.emails_sent + 1 })
  else (.failed, st)

/-- The whole recipient loop: outcomes are recorded per stripped address,
in batch order. -/
def runRows (acct : Account) (email_col : String) :
    List Row → SessionState → (List (String × DispatchOutcome) × SessionState)
  | [], st => ([], st)
  | row :: rest, st =>
      let step := processRow acct email_col row st
      let tail := runRows acct email_col rest step.2
      ((recipientOf row email_col, step.1) :: tail.1, tail.2)

/-- Result of one `send_batch_for_account` call.  `sentCount` is the
returned `sent_count`, which the loop bumps exactly on the `sent` branch;
`opened`/`closed` count transport connections acquired (`smtplib.SMTP`)
and released (`server.quit`); `aborted` records an exception escaping the
call (possible in `app.py` only). -/
structure BatchResult : Type where
  sentCount : Nat
  outcomes : List (String × DispatchOutcome)
  state : SessionState
  opened : Nat
  closed : Nat
  aborted : Bool
deriving DecidableEq, Repr

/-- `send_batch_for_account` of `app.py`: no try/except around setup, so
a failing `SMTP(...)` raises before a connection exists and a failing
`starttls`/`login` raises with the connection still open — in both cases
the exception escapes and `server.quit()` is never reached. -/
def sendBatchApp (acct : Account) (rows : List Row) (email_col : String)
    (st : SessionState) : BatchResult :=
  if !acct.connectOk then ⟨0, [], st, 0, 0, true⟩
  else if !acct.authOk then ⟨0, [], st, 1, 0, true⟩
  else
    let run := runRows acct email_col rows st
    ⟨(run.1.filter (fun p => p.2 == DispatchOutcome.sent)).length, run.1, run.2, 1, 1, false⟩

/-- `send_batch_for_account` of `file.py`: setup and loop are inside
`try/except`, with a `finally` that quits the server whenever it was
created; the call always returns normally. -/
def sendBatchFile (acct : Account) (rows : List Row) (email_col : String)
    (st : SessionState) : BatchResult :=
  if !acct.connectOk then ⟨0, [], st, 0, 0, false⟩
  else if !acct.authOk then ⟨0, [], st, 1, 1, false⟩
  else
    let run := runRows acct email_col rows st
    ⟨(run.1.filter (fun p => p.2 == DispatchOutcome.sent)).length, run.1, run.2, 1, 1, false⟩

/-! ## Campaign run orchestration (`main`, send button branch) -/

/-- The rows `main` keeps:
`rows = [row for _, row in df.iterrows() if str(row[email_col]).strip()]`. -/
def validRows (drows : List Row) (email_col : String) : List Row :=
  drows.filter (fun row => recipientOf row email_col != "")

/-- The sender loop of `app.py`'s `main`: every bucket (empty or not) is
dispatched; an exception escaping `send_batch_for_account` aborts the
loop, and the remaining senders are never driven. -/
def driveApp (email_col : String) :
    List (Account × List Row) → SessionState → (List BatchResult × SessionState × Bool)
  | [], st => ([], st, false)
  | (acct, batch) :: rest, st =>
      let r := sendBatchApp acct batch email_col st
      if r.aborted then ([r], r.state, true)
      else
        let tail := driveApp email_col rest r.state
        (r :: tail.1, tail.2.1, tail.2.2)

/-- The sender loop of `file.py`'s `main`: empty buckets are skipped
(`if not batch: continue`), and `send_batch_for_account` never raises. -/
def driveFile (email_col : String) :
    List (Account × List Row) → SessionState → (List BatchResult × SessionState)
  | [], st => ([], st)
  | (acct, batch) :: rest, st =>
      if batch.isEmpty then
        let tail := driveFile email_col rest st
        (⟨0, [], st, 0, 0, false⟩ :: tail.1, tail.2)
      else
        let r := sendBatchFile acct batch email_col st
        let tail := driveFile email_col rest r.state
        (r :: tail.1, tail.2)

/-- Result of one press of the send button.  `summaryShown` is whether
the closing success message (`st.success`) is reached. -/
structure RunResult : Type where
  perSender : List BatchResult
  total_sent : Nat
  summaryShown : Bool
  state : SessionState
deriving DecidableEq, Repr

/-- One campaign run of `app.py`'s `main` from session state `st0`:
`none` models the `st.error(...)` / `return` path when no dataframe is
loaded or no sender account is configured (session state untouched).
Otherwise the valid rows are counted, `emails_sent` is reset,
`sent_this_session` is NOT reset, buckets are allocated round-robin and
each sender's batch is driven in order. -/
def runCampaignApp (df : Option (List Row)) (accounts : List Account)
    (email_col : String) (st0 : SessionState) : Option RunResult :=
  match df with
  | none => none
  | some drows =>
      if accounts.isEmpty then none
      else
        let rows := validRows drows email_col
        let st1 : SessionState :=
          { st0 with total_emails := rows.length, emails_sent := 0 }
        let bs := allocate rows accounts.length
        let res := driveApp email_col (accounts.zip bs) st1
        some { perSender := res.1
               total_sent := (res.1.map (fun r => r.sentCount)).sum
               summaryShown := !res.2.2
               state := res.2.1 }

/-- One campaign run of `file.py`'s `main`, analogous; the final success
message is always reached. -/
def runCampaignFile (df : Option (List Row)) (accounts : List Account)
    (email_col : String) (st0 : SessionState) : Option RunResult :=
  match df with
  | none => none
  | some drows =>
      if accounts.isEmpty then none
      else
        let rows := validRows drows email_col
        let st1 : SessionState :=
          { st0 with total_emails := rows.length, emails_sent := 0 }
        let bs := allocate rows accounts.length
        let res := driveFile email_col (accounts.zip bs) st1
        some { perSender := res.1
               total_sent := (res.1.map (fun r => r.sentCount)).sum
               summaryShown := true
               state := res.2 }

/-- All per-recipient outcomes of a run, in dispatch order. -/
def allOutcomes (rr : RunResult) : List (String × DispatchOutcome) :=
  (rr.perSender.map (fun b => b.outcomes)).flatten

/-- All per-recipient outcomes of a list of batches, in dispatch order. -/
def allOutBatches (rs : List BatchResult) : List (String × DispatchOutcome) :=
  (rs.map (fun b => b.outcomes)).flatten

/-- The addresses of the outcomes with a given result. -/
def addrsWith (o : DispatchOutcome) (os : List (String × DispatchOutcome)) : List String :=
  (os.filter (fun p => p.2 == o)).map (fun p => p.1)

theorem allocGo_length {α : Type} (n : Nat) :
    ∀ (rs : List α) (i : Nat) (bs : List (List α)),
      (allocGo n i rs bs).length = bs.length := by
  intro rs
  induction rs with
  | nil => intro i bs; simp [allocGo]
  | cons r rs ih =>
      intro i bs
      simp [allocGo, ih]

theorem allocate_length {α : Type} (rows : List α) (n : Nat) :
    (allocate rows n).length = n := by
  simp [allocate, allocGo_length]

theorem getD_set_self {α : Type} (l : List α) (k : Nat) (v d : α) (hk : k < l.length) :
    (l.set k v).getD k d = v := by
  induction l generalizing k with
  | nil => simp at hk
  | cons a l ih =>
      cases k with
      | zero => simp [List.set, List.getD]
      | succ k =>
          simp only [List.set, List.getD_cons_succ]
          exact ih k (by simpa using hk)

theorem getD_set_of_ne {α : Type} (l : List α) (k j : Nat) (v d : α) (h : k ≠ j) :
    (l.set k v).getD j d = l.getD j d := by
  induction l generalizing k j with
  | nil => simp [List.set]
  | cons a l ih =>
      cases k with
      | zero =>
          cases j with
          | zero => exact absurd rfl h
          | succ j => simp [List.set, List.getD]
      | succ k =>
          cases j with
          | zero => simp [List.set, List.getD]
          | succ j =>
              simp only [List.set, List.getD_cons_succ]
              exact ih k j fun hkj => h (by omega)

/-- Characterization of the allocation loop: bucket `j` collects, in input
order, exactly the rows whose enumeration index is congruent to `j`
modulo `n`. -/
theorem allocGo_getD {α : Type} (n : Nat) (hn : 0 < n) :
    ∀ (rs : List α) (i : Nat) (bs : List (List α)), bs.length = n →
      ∀ j, j < n →
        (allocGo n i rs bs).getD j [] =
          bs.getD j [] ++ ((List.enumFrom i rs).filter (fun p => p.1 % n == j)).map Prod.snd := by
  intro rs
  induction rs with
  | nil => intro i bs hbs j hj; simp [allocGo, List.enumFrom]
  | cons r rs ih =>
      intro i bs hbs j hj
      have hmod : i % n < n := Nat.mod_lt _ hn
      have hset : (bs.set (i % n) ((bs.getD (i % n) []) ++ [r])).length = n := by
        simpa using hbs
      rw [allocGo, ih (i + 1) _ hset j hj]
      by_cases hcase : i % n = j
      · subst hcase
        rw [getD_set_self _ _ _ _ (by omega)]
        simp [List.enumFrom, List.filter]
      · rw [getD_set_of_ne _ _ _ _ _ hcase]
        have : ((i, r).1 % n == j) = false := by
          simp [hcase]
        simp [List.enumFrom, List.filter, this]

theorem allocate_getD {α : Type} (rows : List α) (n : Nat) (hn : 0 < n)
    (j : Nat) (hj : j < n) :
    (allocate rows n).getD j [] =
      (rows.enum.filter (fun p => p.1 % n == j)).map Prod.snd := by
  have h := allocGo_getD n hn rows 0 (List.replicate n []) (by simp) j hj
  simpa [allocate, List.enum] using h

theorem map_length_sum_set {α : Type} :
    ∀ (bs : List (List α)) (k : Nat) (r : α), k < bs.length →
      ((bs.set k ((bs.getD k []) ++ [r])).map List.length).sum =
        (bs.map List.length).sum + 1 := by
  intro bs
  induction bs with
  | nil => intro k r hk; simp at hk
  | cons b bs ih =>
      intro k r hk
      cases k with
      | zero => simp [List.set, List.getD]; omega
      | succ k =>
          simp only [List.set, List.map_cons, List.sum_cons, List.getD_cons_succ]
          rw [ih k r (by simpa using hk)]
          omega

/-- The loop distributes every row into some bucket: the bucket sizes sum
to the number of rows. -/
theorem allocGo_sum_length {α : Type} (n : Nat) (hn : 0 < n) :
    ∀ (rs : List α) (i : Nat) (bs : List (List α)), bs.length = n →
      ((allocGo n i rs bs).map List.length).sum = (bs.map List.length).sum + rs.length := by
  intro rs
  induction rs with
  | nil => intro i bs hbs; simp [allocGo]
  | cons r rs ih =>
      intro i bs hbs
      have hmod : i % n < bs.length := by rw [hbs]; exact Nat.mod_lt _ hn
      rw [allocGo, ih (i + 1) _ (by simpa using hbs)]
      rw [map_length_sum_set bs (i % n) r hmod]
      simp; omega

theorem allocate_sum_length {α : Type} (rows : List α) (n : Nat) (hn : 0 < n) :
    ((allocate rows n).map List.length).sum = rows.length := by
  have h := allocGo_sum_length n hn rows 0 (List.replicate n []) (by simp)
  simpa [allocate] using h

theorem isSome_map {α β : Type} (f : α → β) (o : Option α) :
    (o.map f).isSome = o.isSome := by
  cases o <;> rfl

theorem formatAux_text_open (ctx : List (String × String)) (cs : List Char)
    (h : ∀ cs2, cs ≠ '{' :: cs2) :
    formatAux ctx .text ('{' :: cs) = formatAux ctx (.infield []) cs := by
  rw [formatAux.eq_def]
  split
  all_goals try simp_all
  all_goals (rename_i hc1 hc2 heq; first
    | exact absurd heq.1.symm hc1
    | exact absurd heq.1.symm hc2)

theorem formatAux_text_close (ctx : List (String × String)) (cs : List Char)
    (h : ∀ cs2, cs ≠ '}' :: cs2) :
    formatAux ctx .text ('}' :: cs) = none := by
  rw [formatAux.eq_def]
  split
  all_goals try simp_all
  all_goals (rename_i hc1 hc2 heq; first
    | exact absurd heq.1.symm hc1
    | exact absurd heq.1.symm hc2)

theorem formatAux_text_cons_ne (ctx : List (String × String)) (c : Char) (cs : List Char)
    (h1 : c ≠ '{') (h2 : c ≠ '}') :
    formatAux ctx .text (c :: cs) =
      (formatAux ctx .text cs).map (fun s => String.singleton c ++ s) := by
  rw [formatAux.eq_def]
  split
  all_goals try simp_all
  all_goals (rename_i hc1 hc2 heq; first
    | exact absurd heq.1.symm hc1
    | exact absurd heq.1.symm hc2)

theorem formatAux_infield_cons_ne (ctx : List (String × String)) (acc : List Char) (c : Char)
    (cs : List Char) (h : c ≠ '}') :
    formatAux ctx (.infield acc) (c :: cs) = formatAux ctx (.infield (c :: acc)) cs := by
  rw [formatAux.eq_def]
  split
  all_goals simp_all

theorem fieldsAux_text_open (cs : List Char) (h : ∀ cs2, cs ≠ '{' :: cs2) :
    fieldsAux .text ('{' :: cs) = fieldsAux (.infield []) cs := by
  rw [fieldsAux.eq_def]
  split
  all_goals try simp_all
  all_goals (rename_i hc1 hc2 heq; first
    | exact absurd heq.1.symm hc1
    | exact absurd heq.1.symm hc2)

theorem fieldsAux_text_close (cs : List Char) (h : ∀ cs2, cs ≠ '}' :: cs2) :
    fieldsAux .text ('}' :: cs) = none := by
  rw [fieldsAux.eq_def]
  split
  all_goals try simp_all
  all_goals (rename_i hc1 hc2 heq; first
    | exact absurd heq.1.symm hc1
    | exact absurd heq.1.symm hc2)

theorem fieldsAux_text_cons_ne (c : Char) (cs : List Char) (h1 : c ≠ '{') (h2 : c ≠ '}') :
    fieldsAux .text (c :: cs) = fieldsAux .text cs := by
  rw [fieldsAux.eq_def]
  split
  all_goals try simp_all
  all_goals (rename_i hc1 hc2 heq; first
    | exact absurd heq.1.symm hc1
    | exact absurd heq.1.symm hc2)

theorem fieldsAux_infield_cons_ne (acc : List Char) (c : Char) (cs : List Char) (h : c ≠ '}') :
    fieldsAux (.infield acc) (c :: cs) = fieldsAux (.infield (c :: acc)) cs := by
  rw [fieldsAux.eq_def]
  split
  all_goals simp_all

/-- Formatting succeeds exactly when the template parses and every
referenced field is bound in the context. -/
theorem formatAux_isSome_iff (ctx : List (String × String)) (m : FmtMode) (cs : List Char) :
    (formatAux ctx m cs).isSome = true ↔
      ∃ ns, fieldsAux m cs = some ns ∧ ∀ n ∈ ns, (ctx.lookup n).isSome = true := by
  induction m, cs using formatAux.induct ctx with
  | case1 =>
      refine ⟨fun _ => ⟨[], rfl, by simp⟩, fun _ => ?_⟩
      simp [formatAux]
  | case2 cs ih =>
      rw [show formatAux ctx FmtMode.text ('{' :: '{' :: cs) =
        (formatAux ctx FmtMode.text cs).map (fun s => "\x7b" ++ s) from rfl]
      rw [show fieldsAux FmtMode.text ('{' :: '{' :: cs) = fieldsAux FmtMode.text cs from rfl]
      rw [isSome_map]
      exact ih
  | case3 cs ih =>
      rw [show formatAux ctx FmtMode.text ('}' :: '}' :: cs) =
        (formatAux ctx FmtMode.text cs).map (fun s => "\x7d" ++ s) from rfl]
      rw [show fieldsAux FmtMode.text ('}' :: '}' :: cs) = fieldsAux FmtMode.text cs from rfl]
      rw [isSome_map]
      exact ih
  | case4 cs hne ih =>
      rw [formatAux_text_open ctx cs (fun cs2 h => hne cs2 h),
        fieldsAux_text_open cs (fun cs2 h => hne cs2 h)]
      exact ih
  | case5 tail hne =>
      rw [formatAux_text_close ctx tail (fun cs2 h => hne cs2 h),
        fieldsAux_text_close tail (fun cs2 h => hne cs2 h)]
      simp
  | case6 c cs h1 h2 h3 h4 ih =>
      rw [formatAux_text_cons_ne ctx c cs (fun h => h3 h) (fun h => h4 h),
        fieldsAux_text_cons_ne c cs (fun h => h3 h) (fun h => h4 h), isSome_map]
      exact ih
  | case7 acc =>
      simp [formatAux, fieldsAux]
  | case8 acc cs v hl ih =>
      rw [show formatAux ctx (FmtMode.infield acc) ('}' :: cs) =
        (match ctx.lookup (String.mk acc.reverse) with
          | some v => (formatAux ctx .text cs).map (fun s => v ++ s)
          | none => none) from rfl]
      rw [show fieldsAux (FmtMode.infield acc) ('}' :: cs) =
        (fieldsAux .text cs).map (fun ns => String.mk acc.reverse :: ns) from rfl]
      rw [hl]
      rw [isSome_map]
      constructor
      · intro h
        obtain ⟨ns, hns, hall⟩ := ih.mp h
        refine ⟨String.mk acc.reverse :: ns, by rw [hns]; rfl, ?_⟩
        intro n hn
        rcases List.mem_cons.mp hn with h' | h'
        · subst h'; simp [hl]
        · exact hall n h'
      · rintro ⟨ns, hns, hall⟩
        cases hfs : fieldsAux FmtMode.text cs with
        | none => rw [hfs] at hns; exact absurd hns (by simp)
        | some ns0 =>
            rw [hfs] at hns
            apply ih.mpr
            refine ⟨ns0, hfs, ?_⟩
            intro n hn
            apply hall
            have hcons : ns = String.mk acc.reverse :: ns0 := by
              simpa using hns.symm
            rw [hcons]
            exact List.mem_cons_of_mem _ hn
  | case9 acc cs hl =>
      rw [show formatAux ctx (FmtMode.infield acc) ('}' :: cs) =
        (match ctx.lookup (String.mk acc.reverse) with
          | some v => (formatAux ctx .text cs).map (fun s => v ++ s)
          | none => none) from rfl]
      rw [show fieldsAux (FmtMode.infield acc) ('}' :: cs) =
        (fieldsAux .text cs).map (fun ns => String.mk acc.reverse :: ns) from rfl]
      rw [hl]
      constructor
      · intro h; exact absurd h (by simp)
      · rintro ⟨ns, hns, hall⟩
        cases hfs : fieldsAux FmtMode.text cs with
        | none => rw [hfs] at hns; exact absurd hns (by simp)
        | some ns0 =>
            rw [hfs] at hns
            have hcons : ns = String.mk acc.reverse :: ns0 := by simpa using hns.symm
            have hmem : String.mk acc.reverse ∈ ns := by
              rw [hcons]; exact List.mem_cons_self _ _
            have hsome := hall _ hmem
            rw [hl] at hsome
            exact absurd hsome (by simp)
  | case10 acc c cs hne ih =>
      rw [formatAux_infield_cons_ne ctx acc c cs (fun h => hne h),
        fieldsAux_infield_cons_ne acc c cs (fun h => hne h)]
      exact ih
/-! ## Dispatch loop invariants -/

theorem addrsWith_append (o : DispatchOutcome) (xs ys : List (String × DispatchOutcome)) :
    addrsWith o (xs ++ ys) = addrsWith o xs ++ addrsWith o ys := by
  simp [addrsWith, List.filter_append]

theorem addrsWith_cons_sent (r : String) (os : List (String × DispatchOutcome)) :
    addrsWith .sent ((r, .sent) :: os) = r :: addrsWith .sent os := by
  simp [addrsWith]

theorem addrsWith_cons_of_ne (o o' : DispatchOutcome) (r : String)
    (os : List (String × DispatchOutcome)) (h : o' ≠ o) :
    addrsWith o ((r, o') :: os) = addrsWith o os := by
  simp [addrsWith, List.filter_cons, h]

/-- Everything the recipient loop guarantees in one induction: the run
total is untouched, the progress counter advances by exactly the number
of `sent` outcomes, the dedup set grows by exactly the sent addresses,
no address is sent twice, only fresh non-blank addresses are sent, and
there is one outcome per row. -/
theorem runRows_spec (acct : Account) (email_col : String) :
    ∀ (rows : List Row) (st : SessionState),
      (runRows acct email_col rows st).2.total_emails = st.total_emails ∧
      (runRows acct email_col rows st).2.emails_sent =
        st.emails_sent + (addrsWith .sent (runRows acct email_col rows st).1).length ∧
      (runRows acct email_col rows st).2.sent_this_session =
        (addrsWith .sent (runRows acct email_col rows st).1).reverse ++ st.sent_this_session ∧
      (addrsWith .sent (runRows acct email_col rows st).1).Nodup ∧
      (∀ a ∈ addrsWith .sent (runRows acct email_col rows st).1,
          a ∉ st.sent_this_session ∧ a ≠ "") ∧
      (runRows acct email_col rows st).1.length = rows.length := by
  intro rows
  induction rows with
  | nil =>
      intro st
      simp [runRows, addrsWith]
  | cons row rest ih =>
      intro st
      have hstep : runRows acct email_col (row :: rest) st =
          ((recipientOf row email_col, (processRow acct email_col row st).1) ::
            (runRows acct email_col rest (processRow acct email_col row st).2).1,
           (runRows acct email_col rest (processRow acct email_col row st).2).2) := rfl
      by_cases hr : recipientOf row email_col = ""
      · have hpr : processRow acct email_col row st = (.skippedEmpty, st) := by
          simp [processRow, hr]
        rw [hstep, hpr]
        obtain ⟨h1, h2, h3, h4, h5, h6⟩ := ih st
        rw [addrsWith_cons_of_ne _ _ _ _ (by simp)]
        exact ⟨h1, h2, h3, h4, h5, by simpa using h6⟩
      · by_cases hmem : recipientOf row email_col ∈ st.sent_this_session
        · have hpr : processRow acct email_col row st = (.skippedDuplicate, st) := by
            simp [processRow, hr, hmem]
          rw [hstep, hpr]
          obtain ⟨h1, h2, h3, h4, h5, h6⟩ := ih st
          rw [addrsWith_cons_of_ne _ _ _ _ (by simp)]
          exact ⟨h1, h2, h3, h4, h5, by simpa using h6⟩
        · by_cases hok : acct.sendOk (recipientOf row email_col) = true
          · have hpr : processRow acct email_col row st =
                (.sent, { st with
                            sent_this_session := recipientOf row email_col :: st.sent_this_session
                            emails_sent := st.emails_sent + 1 }) := by
              simp [processRow, hr, hmem, hok]
            rw [hstep, hpr]
            set st1 : SessionState :=
              { st with
                  sent_this_session := recipientOf row email_col :: st.sent_this_session
                  emails_sent := st.emails_sent + 1 } with hst1
            obtain ⟨h1, h2, h3, h4, h5, h6⟩ := ih st1
            rw [addrsWith_cons_sent]
            refine ⟨by simpa using h1, ?_, ?_, ?_, ?_, by simpa using h6⟩
            · rw [h2]
              simp [hst1]
              omega
            · rw [h3]
              simp [hst1]
            · refine List.nodup_cons.mpr ⟨?_, h4⟩
              intro hc
              have := (h5 _ hc).1
              rw [hst1] at this
              exact this (List.mem_cons_self _ _)
            · intro a ha
              rcases List.mem_cons.mp ha with h | h
              · subst h
                exact ⟨hmem, hr⟩
              · have := h5 a h
                rw [hst1] at this
                exact ⟨fun hmem2 => this.1 (List.mem_cons_of_mem _ hmem2), this.2⟩
          · have hpr : processRow acct email_col row st = (.failed, st) := by
              simp [processRow, hr, hmem, hok]
            rw [hstep, hpr]
            obtain ⟨h1, h2, h3, h4, h5, h6⟩ := ih st
            rw [addrsWith_cons_of_ne _ _ _ _ (by simp)]
            exact ⟨h1, h2, h3, h4, h5, by simpa using h6⟩

/-- Batch-level invariants for the `file.py` variant: regardless of the
setup outcome, the state evolves exactly by the sent outcomes, and
`sent_count` is the number of `sent` outcomes. -/
theorem sendBatchFile_spec (acct : Account) (rows : List Row) (email_col : String)
    (st : SessionState) :
    (sendBatchFile acct rows email_col st).state.total_emails = st.total_emails ∧
    (sendBatchFile acct rows email_col st).state.emails_sent =
      st.emails_sent + (addrsWith .sent (sendBatchFile acct rows email_col st).outcomes).length ∧
    (sendBatchFile acct rows email_col st).state.sent_this_session =
      (addrsWith .sent (sendBatchFile acct rows email_col st).outcomes).reverse ++
        st.sent_this_session ∧
    (addrsWith .sent (sendBatchFile acct rows email_col st).outcomes).Nodup ∧
    (∀ a ∈ addrsWith .sent (sendBatchFile acct rows email_col st).outcomes,
        a ∉ st.sent_this_session ∧ a ≠ "") ∧
    (sendBatchFile acct rows email_col st).outcomes.length ≤ rows.length ∧
    (sendBatchFile acct rows email_col st).sentCount =
      (addrsWith .sent (sendBatchFile acct rows email_col st).outcomes).length := by
  by_cases hc : acct.connectOk = true
  · by_cases ha : acct.authOk = true
    · have hdef : sendBatchFile acct rows email_col st =
          ⟨((runRows acct email_col rows st).1.filter
              (fun p => p.2 == DispatchOutcome.sent)).length,
            (runRows acct email_col rows st).1, (runRows acct email_col rows st).2,
            1, 1, false⟩ := by
        simp [sendBatchFile, hc, ha]
      obtain ⟨h1, h2, h3, h4, h5, h6⟩ := runRows_spec acct email_col rows st
      rw [hdef]
      exact ⟨h1, h2, h3, h4, h5, le_of_eq h6, by simp [addrsWith]⟩
    · have hdef : sendBatchFile acct rows email_col st = ⟨0, [], st, 1, 1, false⟩ := by
        simp [sendBatchFile, hc, ha]
      rw [hdef]
      simp [addrsWith]
  · have hdef : sendBatchFile acct rows email_col st = ⟨0, [], st, 0, 0, false⟩ := by
      simp [sendBatchFile, hc]
    rw [hdef]
    simp [addrsWith]

/-- Batch-level invariants for the `app.py` variant (same state evolution;
setup failures abort with no outcomes). -/
theorem sendBatchApp_spec (acct : Account) (rows : List Row) (email_col : String)
    (st : SessionState) :
    (sendBatchApp acct rows email_col st).state.total_emails = st.total_emails ∧
    (sendBatchApp acct rows email_col st).state.emails_sent =
      st.emails_sent + (addrsWith .sent (sendBatchApp acct rows email_col st).outcomes).length ∧
    (sendBatchApp acct rows email_col st).state.sent_this_session =
      (addrsWith .sent (sendBatchApp acct rows email_col st).outcomes).reverse ++
        st.sent_this_session ∧
    (addrsWith .sent (sendBatchApp acct rows email_col st).outcomes).Nodup ∧
    (∀ a ∈ addrsWith .sent (sendBatchApp acct rows email_col st).outcomes,
        a ∉ st.sent_this_session ∧ a ≠ "") ∧
    (sendBatchApp acct rows email_col st).outcomes.length ≤ rows.length ∧
    (sendBatchApp acct rows email_col st).sentCount =
      (addrsWith .sent (sendBatchApp acct rows email_col st).outcomes).length := by
  by_cases hc : acct.connectOk = true
  · by_cases ha : acct.authOk = true
    · have hdef : sendBatchApp acct rows email_col st =
          ⟨((runRows acct email_col rows st).1.filter
              (fun p => p.2 == DispatchOutcome.sent)).length,
            (runRows acct email_col rows st).1, (runRows acct email_col rows st).2,
            1, 1, false⟩ := by
        simp [sendBatchApp, hc, ha]
      obtain ⟨h1, h2, h3, h4, h5, h6⟩ := runRows_spec acct email_col rows st
      rw [hdef]
      exact ⟨h1, h2, h3, h4, h5, le_of_eq h6, by simp [addrsWith]⟩
    · have hdef : sendBatchApp acct rows email_col st = ⟨0, [], st, 1, 0, true⟩ := by
        simp [sendBatchApp, hc, ha]
      rw [hdef]
      simp [addrsWith]
  · have hdef : sendBatchApp acct rows email_col st = ⟨0, [], st, 0, 0, true⟩ := by
      simp [sendBatchApp, hc]
    rw [hdef]
    simp [addrsWith]

theorem allOutBatches_cons (b : BatchResult) (rs : List BatchResult) :
    allOutBatches (b :: rs) = b.outcomes ++ allOutBatches rs := by
  simp [allOutBatches]

/-- Sender-loop invariants for the `file.py` variant. -/
theorem driveFile_spec (email_col : String) :
    ∀ (ps : List (Account × List Row)) (st : SessionState),
      (driveFile email_col ps st).2.total_emails = st.total_emails ∧
      (driveFile email_col ps st).2.emails_sent =
        st.emails_sent +
          (addrsWith .sent (allOutBatches (driveFile email_col ps st).1)).length ∧
      (driveFile email_col ps st).2.sent_this_session =
        (addrsWith .sent (allOutBatches (driveFile email_col ps st).1)).reverse ++
          st.sent_this_session ∧
      (addrsWith .sent (allOutBatches (driveFile email_col ps st).1)).Nodup ∧
      (∀ a ∈ addrsWith .sent (allOutBatches (driveFile email_col ps st).1),
          a ∉ st.sent_this_session ∧ a ≠ "") ∧
      (allOutBatches (driveFile email_col ps st).1).length ≤
        (ps.map (fun p => p.2.length)).sum ∧
      (driveFile email_col ps st).1.length = ps.length ∧
      (∀ b ∈ (driveFile email_col ps st).1, b.aborted = false ∧
        b.sentCount = (addrsWith .sent b.outcomes).length) := by
  intro ps
  induction ps with
  | nil =>
      intro st
      simp [driveFile, allOutBatches, addrsWith]
  | cons p rest ih =>
      intro st
      obtain ⟨acct, batch⟩ := p
      by_cases hemp : batch.isEmpty
      · have hstep : driveFile email_col ((acct, batch) :: rest) st =
            (⟨0, [], st, 0, 0, false⟩ :: (driveFile email_col rest st).1,
              (driveFile email_col rest st).2) := by
          simp [driveFile, hemp]
        obtain ⟨h1, h2, h3, h4, h5, h6, h7, h8⟩ := ih st
        rw [hstep]
        refine ⟨h1, ?_, ?_, ?_, ?_, ?_, by simpa using h7, ?_⟩
        · simpa [allOutBatches_cons] using h2
        · simpa [allOutBatches_cons] using h3
        · simpa [allOutBatches_cons] using h4
        · simpa [allOutBatches_cons] using h5
        · rw [allOutBatches_cons]
          have houts : (⟨0, [], st, 0, 0, false⟩ : BatchResult).outcomes = [] := rfl
          rw [houts, List.nil_append, List.map_cons, List.sum_cons]
          omega
        · intro b hb
          rcases List.mem_cons.mp hb with h | h
          · subst h; exact ⟨rfl, by simp [addrsWith]⟩
          · exact h8 b h
      · obtain ⟨b1, b2, b3, b4, b5, b6, b7⟩ := sendBatchFile_spec acct batch email_col st
        have hstep : driveFile email_col ((acct, batch) :: rest) st =
            (sendBatchFile acct batch email_col st ::
                (driveFile email_col rest (sendBatchFile acct batch email_col st).state).1,
              (driveFile email_col rest (sendBatchFile acct batch email_col st).state).2) := by
          simp [driveFile, hemp]
        set bh := sendBatchFile acct batch email_col st with hbh
        obtain ⟨h1, h2, h3, h4, h5, h6, h7, h8⟩ := ih bh.state
        rw [hstep]
        constructor
        · rw [h1, b1]
        constructor
        · rw [h2, b2, allOutBatches_cons, addrsWith_append]
          simp [Nat.add_assoc]
        constructor
        · rw [h3, b3, allOutBatches_cons, addrsWith_append]
          simp
        constructor
        · rw [allOutBatches_cons, addrsWith_append]
          refine List.Nodup.append b4 h4 ?_
          intro a ha1 ha2
          have := h5 a ha2
          rw [b3] at this
          exact this.1 (by simp [ha1])
        constructor
        · intro a ha
          rw [allOutBatches_cons, addrsWith_append] at ha
          rcases List.mem_append.mp ha with h | h
          · exact b5 a h
          · have := h5 a h
            rw [b3] at this
            refine ⟨fun hmem => this.1 (by simp [hmem]), this.2⟩
        constructor
        · rw [allOutBatches_cons]
          simp only [List.length_append, List.map_cons, List.sum_cons]
          exact Nat.add_le_add b6 h6
        constructor
        · simpa using h7
        · intro b hb
          rcases List.mem_cons.mp hb with h | h
          · subst h
            constructor
            · have : bh = sendBatchFile acct batch email_col st := hbh
              rw [this]
              by_cases hc : acct.connectOk = true
              · by_cases ha : acct.authOk = true
                · simp [sendBatchFile, hc, ha]
                · simp [sendBatchFile, hc, ha]
              · simp [sendBatchFile, hc]
            · exact b7
          · exact h8 b h

/-- Sender-loop invariants for the `app.py` variant (the loop may stop
early at an aborted batch). -/
theorem driveApp_spec (email_col : String) :
    ∀ (ps : List (Account × List Row)) (st : SessionState),
      (driveApp email_col ps st).2.1.total_emails = st.total_emails ∧
      (driveApp email_col ps st).2.1.emails_sent =
        st.emails_sent +
          (addrsWith .sent (allOutBatches (driveApp email_col ps st).1)).length ∧
      (driveApp email_col ps st).2.1.sent_this_session =
        (addrsWith .sent (allOutBatches (driveApp email_col ps st).1)).reverse ++
          st.sent_this_session ∧
      (addrsWith .sent (allOutBatches (driveApp email_col ps st).1)).Nodup ∧
      (∀ a ∈ addrsWith .sent (allOutBatches (driveApp email_col ps st).1),
          a ∉ st.sent_this_session ∧ a ≠ "") ∧
      (allOutBatches (driveApp email_col ps st).1).length ≤
        (ps.map (fun p => p.2.length)).sum ∧
      (driveApp email_col ps st).1.length ≤ ps.length ∧
      (∀ b ∈ (driveApp email_col ps st).1,
        b.sentCount = (addrsWith .sent b.outcomes).length) := by
  intro ps
  induction ps with
  | nil =>
      intro st
      simp [driveApp, allOutBatches, addrsWith]
  | cons p rest ih =>
      intro st
      obtain ⟨acct, batch⟩ := p
      obtain ⟨b1, b2, b3, b4, b5, b6, b7⟩ := sendBatchApp_spec acct batch email_col st
      by_cases hab : (sendBatchApp acct batch email_col st).aborted = true
      · have hstep : driveApp email_col ((acct, batch) :: rest) st =
            ([sendBatchApp acct batch email_col st],
              ((sendBatchApp acct batch email_col st).state, true)) := by
          simp [driveApp, hab]
        rw [hstep]
        refine ⟨?_, ?_, ?_, ?_, ?_, ?_, by simp, ?_⟩
        · simpa [allOutBatches] using b1
        · simpa [allOutBatches] using b2
        · simpa [allOutBatches] using b3
        · simpa [allOutBatches] using b4
        · simpa [allOutBatches] using b5
        · simp only [allOutBatches, List.map_cons, List.sum_cons, List.map_nil,
            List.flatten_cons, List.flatten_nil, List.append_nil]
          exact Nat.le_add_right_of_le b6
        · intro b hb
          rcases List.mem_cons.mp hb with h | h
          · subst h; exact b7
          · simp at h
      · have hstep : driveApp email_col ((acct, batch) :: rest) st =
            (sendBatchApp acct batch email_col st ::
                (driveApp email_col rest (sendBatchApp acct batch email_col st).state).1,
              ((driveApp email_col rest (sendBatchApp acct batch email_col st).state).2.1,
                (driveApp email_col rest (sendBatchApp acct batch email_col st).state).2.2)) := by
          simp [driveApp, hab]
        set bh := sendBatchApp acct batch email_col st with hbh
        obtain ⟨h1, h2, h3, h4, h5, h6, h7, h8⟩ := ih bh.state
        rw [hstep]
        constructor
        · rw [h1, b1]
        constructor
        · rw [h2, b2, allOutBatches_cons, addrsWith_append]
          simp [Nat.add_assoc]
        constructor
        · rw [h3, b3, allOutBatches_cons, addrsWith_append]
          simp
        constructor
        · rw [allOutBatches_cons, addrsWith_append]
          refine List.Nodup.append b4 h4 ?_
          intro a ha1 ha2
          have := h5 a ha2
          rw [b3] at this
          exact this.1 (by simp [ha1])
        constructor
        · intro a ha
          rw [allOutBatches_cons, addrsWith_append] at ha
          rcases List.mem_append.mp ha with h | h
          · exact b5 a h
          · have := h5 a h
            rw [b3] at this
            refine ⟨fun hmem => this.1 (by simp [hmem]), this.2⟩
        constructor
        · rw [allOutBatches_cons]
          simp only [List.length_append, List.map_cons, List.sum_cons]
          exact Nat.add_le_add b6 h6
        constructor
        · simpa using Nat.succ_le_succ h7
        · intro b hb
          rcases List.mem_cons.mp hb with h | h
          · subst h; exact b7
          · exact h8 b h

theorem sum_map_congr {α : Type} (l : List α) (f g : α → Nat) (h : ∀ a ∈ l, f a = g a) :
    (l.map f).sum = (l.map g).sum := by
  induction l with
  | nil => rfl
  | cons a l ih =>
      simp only [List.map_cons, List.sum_cons]
      rw [h a (List.mem_cons_self _ _), ih (fun a ha => h a (List.mem_cons_of_mem _ ha))]

theorem addrsWith_allOutBatches_length (o : DispatchOutcome) :
    ∀ rs : List BatchResult,
      (addrsWith o (allOutBatches rs)).length =
        (rs.map (fun b => (addrsWith o b.outcomes).length)).sum := by
  intro rs
  induction rs with
  | nil => simp [allOutBatches, addrsWith]
  | cons b rs ih =>
      rw [allOutBatches_cons, addrsWith_append]
      simp only [List.length_append, List.map_cons, List.sum_cons, ih]

theorem zip_buckets_sum (accounts : List Account) (bs : List (List Row))
    (hlen : bs.length = accounts.length) :
    ((accounts.zip bs).map (fun p => p.2.length)).sum = (bs.map List.length).sum := by
  have hsnd : (accounts.zip bs).map Prod.snd = bs :=
    List.map_snd_zip accounts bs (le_of_eq hlen)
  calc ((accounts.zip bs).map (fun p => p.2.length)).sum
      = (((accounts.zip bs).map Prod.snd).map List.length).sum := by
        rw [List.map_map]; rfl
    _ = (bs.map List.length).sum := by rw [hsnd]

/-- Run-level invariants of `file.py`'s send handler. -/
theorem runCampaignFile_spec (drows : List Row) (accounts : List Account)
    (email_col : String) (st0 : SessionState) (rr : RunResult) (hacc : accounts ≠ [])
    (h : runCampaignFile (some drows) accounts email_col st0 = some rr) :
    rr.state.total_emails = (validRows drows email_col).length ∧
    rr.state.emails_sent = (addrsWith .sent (allOutcomes rr)).length ∧
    rr.state.sent_this_session =
      (addrsWith .sent (allOutcomes rr)).reverse ++ st0.sent_this_session ∧
    (addrsWith .sent (allOutcomes rr)).Nodup ∧
    (∀ a ∈ addrsWith .sent (allOutcomes rr), a ∉ st0.sent_this_session ∧ a ≠ "") ∧
    (allOutcomes rr).length ≤ (validRows drows email_col).length ∧
    rr.perSender.length = accounts.length ∧
    rr.total_sent = (addrsWith .sent (allOutcomes rr)).length ∧
    rr.summaryShown = true ∧
    (∀ b ∈ rr.perSender, b.aborted = false) := by
  have hne : accounts.isEmpty = false := by
    cases accounts with
    | nil => exact absurd rfl hacc
    | cons a l => rfl
  set rows := validRows drows email_col with hrows
  set bs := allocate rows accounts.length with hbs
  set st1 : SessionState :=
    { st0 with total_emails := rows.length, emails_sent := 0 } with hst1
  have hrun : rr = { perSender := (driveFile email_col (accounts.zip bs) st1).1
                     total_sent := ((driveFile email_col (accounts.zip bs) st1).1.map
                        (fun r => r.sentCount)).sum
                     summaryShown := true
                     state := (driveFile email_col (accounts.zip bs) st1).2 } := by
    have := h
    simp only [runCampaignFile, hne, Bool.false_eq_true, if_false, Option.some.injEq] at this
    exact this.symm
  obtain ⟨h1, h2, h3, h4, h5, h6, h7, h8⟩ := driveFile_spec email_col (accounts.zip bs) st1
  have hout : allOutcomes rr = allOutBatches (driveFile email_col (accounts.zip bs) st1).1 := by
    rw [hrun]; rfl
  have hnpos : 0 < accounts.length := List.length_pos.mpr hacc
  have hlen : bs.length = accounts.length := allocate_length rows accounts.length
  have hsum : ((accounts.zip bs).map (fun p => p.2.length)).sum = rows.length := by
    rw [zip_buckets_sum accounts bs hlen, hbs, allocate_sum_length rows accounts.length hnpos]
  refine ⟨?_, ?_, ?_, ?_, ?_, ?_, ?_, ?_, ?_, ?_⟩
  · rw [hrun]
    exact h1
  · rw [hout, hrun]
    simpa using h2
  · rw [hout, hrun]
    exact h3
  · rw [hout]; exact h4
  · rw [hout]; exact h5
  · rw [hout]
    exact h6.trans (le_of_eq hsum)
  · rw [hrun]
    simp only []
    rw [h7, List.length_zip, hlen, Nat.min_self]
  · rw [hout, hrun]
    simp only []
    rw [addrsWith_allOutBatches_length]
    exact sum_map_congr _ _ _ (fun b hb => (h8 b hb).2)
  · rw [hrun]
  · rw [hrun]
    exact fun b hb => (h8 b hb).1

/-- Run-level invariants of `app.py`'s send handler. -/
theorem runCampaignApp_spec (drows : List Row) (accounts : List Account)
    (email_col : String) (st0 : SessionState) (rr : RunResult) (hacc : accounts ≠ [])
    (h : runCampaignApp (some drows) accounts email_col st0 = some rr) :
    rr.state.total_emails = (validRows drows email_col).length ∧
    rr.state.emails_sent = (addrsWith .sent (allOutcomes rr)).length ∧
    rr.state.sent_this_session =
      (addrsWith .sent (allOutcomes rr)).reverse ++ st0.sent_this_session ∧
    (addrsWith .sent (allOutcomes rr)).Nodup ∧
    (∀ a ∈ addrsWith .sent (allOutcomes rr), a ∉ st0.sent_this_session ∧ a ≠ "") ∧
    (allOutcomes rr).length ≤ (validRows drows email_col).length ∧
    rr.total_sent = (addrsWith .sent (allOutcomes rr)).length := by
  have hne : accounts.isEmpty = false := by
    cases accounts with
    | nil => exact absurd rfl hacc
    | cons a l => rfl
  set rows := validRows drows email_col with hrows
  set bs := allocate rows accounts.length with hbs
  set st1 : SessionState :=
    { st0 with total_emails := rows.length, emails_sent := 0 } with hst1
  have hrun : rr = { perSender := (driveApp email_col (accounts.zip bs) st1).1
                     total_sent := ((driveApp email_col (accounts.zip bs) st1).1.map
                        (fun r => r.sentCount)).sum
                     summaryShown := !(driveApp email_col (accounts.zip bs) st1).2.2
                     state := (driveApp email_col (accounts.zip bs) st1).2.1 } := by
    have := h
    simp only [runCampaignApp, hne, Bool.false_eq_true, if_false, Option.some.injEq] at this
    exact this.symm
  obtain ⟨h1, h2, h3, h4, h5, h6, h7, h8⟩ := driveApp_spec email_col (accounts.zip bs) st1
  have hout : allOutcomes rr = allOutBatches (driveApp email_col (accounts.zip bs) st1).1 := by
    rw [hrun]; rfl
  have hnpos : 0 < accounts.length := List.length_pos.mpr hacc
  have hlen : bs.length = accounts.length := allocate_length rows accounts.length
  have hsum : ((accounts.zip bs).map (fun p => p.2.length)).sum = rows.length := by
    rw [zip_buckets_sum accounts bs hlen, hbs, allocate_sum_length rows accounts.length hnpos]
  refine ⟨?_, ?_, ?_, ?_, ?_, ?_, ?_⟩
  · rw [hrun]
    exact h1
  · rw [hout, hrun]
    simpa using h2
  · rw [hout, hrun]
    exact h3
  · rw [hout]; exact h4
  · rw [hout]; exact h5
  · rw [hout]
    exact h6.trans (le_of_eq hsum)
  · rw [hout, hrun]
    simp only []
    rw [addrsWith_allOutBatches_length]
    exact sum_map_congr _ _ _ (fun b hb => h8 b hb)

theorem lookup_cons_of_ne (key k v : String) (l : List (String × String)) (h : key ≠ k) :
    List.lookup key ((k, v) :: l) = List.lookup key l := by
  have hb : (key == k) = false := beq_eq_false_iff_ne.mpr h
  simp [List.lookup, hb]

theorem lookup_cons_self (k v : String) (l : List (String × String)) :
    List.lookup k ((k, v) :: l) = some v := by
  simp [List.lookup]

/-- Lookup in a context made of an optional `name` binding followed by an
optional `company` binding. -/
theorem lookup_pair_append (key : String) (L1 L2 : List (String × String))
    (O1 O2 : Option String)
    (h1 : L1 = [] ∧ O1 = none ∨ ∃ v, L1 = [("name", v)] ∧ O1 = some v)
    (h2 : L2 = [] ∧ O2 = none ∨ ∃ v, L2 = [("company", v)] ∧ O2 = some v) :
    List.lookup key (L1 ++ L2) =
      (if key = "name" then O1 else if key = "company" then O2 else none) := by
  rcases h1 with ⟨h1, ho1⟩ | ⟨v, h1, ho1⟩ <;>
    rcases h2 with ⟨h2, ho2⟩ | ⟨v2, h2, ho2⟩ <;>
    subst h1 <;> subst ho1 <;> subst h2 <;> subst ho2
  · simp
  · by_cases hname : key = "name"
    · subst hname
      rw [List.nil_append, lookup_cons_of_ne _ _ _ _ (by decide)]
      simp
    · by_cases hcomp : key = "company"
      · subst hcomp
        rw [List.nil_append, lookup_cons_self]
        simp
      · rw [List.nil_append, lookup_cons_of_ne _ _ _ _ hcomp]
        simp [hname, hcomp]
  · by_cases hname : key = "name"
    · subst hname
      rw [List.append_nil, lookup_cons_self]
      simp
    · rw [List.append_nil, lookup_cons_of_ne _ _ _ _ hname]
      simp [hname]
  · by_cases hname : key = "name"
    · subst hname
      rw [List.singleton_append, lookup_cons_self]
      simp
    · rw [List.singleton_append, lookup_cons_of_ne _ _ _ _ hname]
      by_cases hcomp : key = "company"
      · subst hcomp
        rw [lookup_cons_self]
        simp
      · rw [lookup_cons_of_ne _ _ _ _ hcomp]
        simp [hname, hcomp]

/-- Full characterization of the context `build_email` constructs, as a
function of the looked-up key. -/
theorem buildContext_lookup (row : Row) (nc cc : Option String) (key : String) :
    (buildContext row nc cc).lookup key =
      (if key = "name" then
        (match nc with
          | some k => if k ≠ "" ∧ (row.lookup k).isSome then some (getCol row k) else none
          | none => none)
      else if key = "company" then
        (match cc with
          | some k => if k ≠ "" ∧ (row.lookup k).isSome then some (getCol row k) else none
          | none => none)
      else none) := by
  apply lookup_pair_append
  · rcases nc with - | k
    · exact Or.inl ⟨rfl, rfl⟩
    · by_cases hk : k ≠ "" ∧ (row.lookup k).isSome = true
      · exact Or.inr ⟨getCol row k,
          show (if k ≠ "" ∧ (List.lookup k row).isSome = true
              then [("name", getCol row k)] else []) = [("name", getCol row k)] from
            by rw [if_pos hk],
          show (if k ≠ "" ∧ (List.lookup k row).isSome = true
              then some (getCol row k) else none) = some (getCol row k) from
            by rw [if_pos hk]⟩
      · exact Or.inl ⟨
          show (if k ≠ "" ∧ (List.lookup k row).isSome = true
              then [("name", getCol row k)] else []) = [] from by rw [if_neg hk],
          show (if k ≠ "" ∧ (List.lookup k row).isSome = true
              then some (getCol row k) else none) = none from by rw [if_neg hk]⟩
  · rcases cc with - | k
    · exact Or.inl ⟨rfl, rfl⟩
    · by_cases hk : k ≠ "" ∧ (row.lookup k).isSome = true
      · exact Or.inr ⟨getCol row k,
          show (if k ≠ "" ∧ (List.lookup k row).isSome = true
              then [("company", getCol row k)] else []) = [("company", getCol row k)] from
            by rw [if_pos hk],
          show (if k ≠ "" ∧ (List.lookup k row).isSome = true
              then some (getCol row k) else none) = some (getCol row k) from
            by rw [if_pos hk]⟩
      · exact Or.inl ⟨
          show (if k ≠ "" ∧ (List.lookup k row).isSome = true
              then [("company", getCol row k)] else []) = [] from by rw [if_neg hk],
          show (if k ≠ "" ∧ (List.lookup k row).isSome = true
              then some (getCol row k) else none) = none from by rw [if_neg hk]⟩

/-! ## Claims -/

/-- Claim C1: for every ordered recipient list and sender count `n ≥ 1`
the allocator produces `n` buckets; bucket `j` is exactly the recipients
at positions `i ≡ j (mod n)`, in input order; every position belongs to
exactly one bucket, and bucket sizes sum to the input length, so the
buckets are a deterministic order-preserving partition; in particular
five recipients over two senders split as `[[a, c, e], [b, d]]`. -/
theorem C1_round_robin_partition {α : Type} (rows : List α) (n : Nat) (hn : 1 ≤ n)
    (a b c d e : α) :
    (allocate rows n).length = n ∧
    (∀ j, j < n →
      (allocate rows n).getD j [] =
        (rows.enum.filter (fun p => p.1 % n == j)).map Prod.snd) ∧
    ((allocate rows n).map List.length).sum = rows.length ∧
    (∀ i, i < rows.length → ∃! j, j < n ∧ i % n = j) ∧
    allocate [a, b, c, d, e] 2 = [[a, c, e], [b, d]] := by
  have hn0 : 0 < n := hn
  refine ⟨allocate_length rows n, ?_, allocate_sum_length rows n hn0, ?_, ?_⟩
  · intro j hj
    exact allocate_getD rows n hn0 j hj
  · intro i _
    exact ⟨i % n, ⟨Nat.mod_lt _ hn0, rfl⟩, fun y hy => hy.2.symm⟩
  · rfl

theorem C1_round_robin_partition_witness :
    (allocate ["a", "b", "c", "d", "e"] 2).length = 2 ∧
    allocate ["a", "b", "c", "d", "e"] 2 = [["a", "c", "e"], ["b", "d"]] :=
  ⟨(C1_round_robin_partition ["a", "b", "c", "d", "e"] 2 (by decide)
      "a" "b" "c" "d" "e").1,
    (C1_round_robin_partition [] 2 (by decide) "a" "b" "c" "d" "e").2.2.2.2⟩

/-- Claim C2: rendering is total and best-effort: `safe_format` returns
the successful substitution when `format` succeeds and the original
template whenever it cannot complete — in particular whenever the
placeholder syntax is malformed, and whenever some referenced placeholder
is missing from the context; rendering `"Hi {name}"` against the empty
context yields the literal `"Hi {name}"`. -/
theorem C2_render_total_fallback (t : String) (ctx : List (String × String)) :
    (∀ s, pyFormat t ctx = some s → safe_format t ctx = s) ∧
    (pyFormat t ctx = none → safe_format t ctx = t) ∧
    (templateFields t = none → safe_format t ctx = t) ∧
    (∀ ns, templateFields t = some ns → (∃ n ∈ ns, ctx.lookup n = none) →
      safe_format t ctx = t) ∧
    safe_format "Hi {name}" [] = "Hi {name}" := by
  refine ⟨?_, ?_, ?_, ?_, ?_⟩
  · intro s hs
    simp [safe_format, hs]
  · intro hnone
    simp [safe_format, hnone]
  · intro hmal
    have : ¬ (pyFormat t ctx).isSome = true := by
      rw [pyFormat, formatAux_isSome_iff]
      rintro ⟨ns, hns, -⟩
      rw [templateFields] at hmal
      rw [hmal] at hns
      exact absurd hns (by simp)
    cases hpf : pyFormat t ctx with
    | none => simp [safe_format, hpf]
    | some s => rw [hpf] at this; simp at this
  · intro ns hns ⟨nm, hmem, hmiss⟩
    have : ¬ (pyFormat t ctx).isSome = true := by
      rw [pyFormat, formatAux_isSome_iff]
      rintro ⟨ns2, hns2, hall⟩
      rw [templateFields] at hns
      rw [hns] at hns2
      have hns2' : ns = ns2 := by simpa using hns2
      have := hall nm (hns2' ▸ hmem)
      rw [hmiss] at this
      simp at this
    cases hpf : pyFormat t ctx with
    | none => simp [safe_format, hpf]
    | some s => rw [hpf] at this; simp at this
  · rfl

theorem C2_render_total_fallback_witness :
    safe_format "Hi {name}" [("company", "x")] = "Hi {name}" :=
  (C2_render_total_fallback "Hi {name}" [("company", "x")]).2.2.2.1 ["name"]
    (by decide) ⟨"name", by decide, by decide⟩

/-- Claim C3 counterexample: with no name field configured the resolved
context does not bind `name` at all (in particular not to `"there"`), and
with a name field holding `"  John  "` the binding keeps the raw value —
it is not the trimmed `"John"`.  This falsifies both the fallback and the
trimming asserted by the claim. -/
theorem C3_counterexample :
    (buildContext [] none none).lookup "name" = none ∧
    (buildContext [] none none).lookup "company" = none ∧
    (buildContext [("n", "  John  ")] (some "n") none).lookup "name" ≠ some "John" ∧
    (buildContext [("n", "  John  ")] (some "n") none).lookup "name" = some "  John  " := by
  refine ⟨rfl, rfl, ?_, rfl⟩
  intro h
  simp [buildContext, getCol, List.lookup] at h

/-- Claim C3 amended: the resolver binds `name` to the raw, untrimmed
value of the name field exactly when a name field is configured
(non-empty column name) and present on the recipient row, and binds
nothing otherwise — there is no `"there"` fallback; symmetrically for
`company` with no `"your company"` fallback, and no other key is ever
bound. -/
theorem C3_context_resolver (row : Row) (nc cc : Option String) :
    ((buildContext row nc cc).lookup "name" =
      (match nc with
        | some k => if k ≠ "" ∧ (row.lookup k).isSome then some (getCol row k) else none
        | none => none)) ∧
    ((buildContext row nc cc).lookup "company" =
      (match cc with
        | some k => if k ≠ "" ∧ (row.lookup k).isSome then some (getCol row k) else none
        | none => none)) ∧
    (∀ key v, (buildContext row nc cc).lookup key = some v →
      key = "name" ∨ key = "company") := by
  refine ⟨?_, ?_, ?_⟩
  · rw [buildContext_lookup]
    simp
  · rw [buildContext_lookup]
    simp
  · intro key v hkey
    rw [buildContext_lookup] at hkey
    by_cases h1 : key = "name"
    · exact Or.inl h1
    · by_cases h2 : key = "company"
      · exact Or.inr h2
      · rw [if_neg h1, if_neg h2] at hkey
        exact absurd hkey (by simp)

theorem C3_context_resolver_witness :
    (buildContext [("n", "  John  ")] (some "n") none).lookup "name" =
      some "  John  " := by
  have h := (C3_context_resolver [("n", "  John  ")] (some "n") none).1
  rw [h]
  decide

/-- Claim C4: a recipient whose stripped address is already in the dedup
set is skipped as a duplicate with the session state (dedup set and
progress counter) unchanged, so no transmission is attempted; and over a
whole run — in either variant — no address ever has two `sent` outcomes,
whatever buckets it appears in.  (The dedup set never contains the empty
string, which holds for every reachable state.) -/
theorem C4_dedup_ledger (email_col : String) :
    (∀ (acct : Account) (row : Row) (st : SessionState),
      "" ∉ st.sent_this_session →
      recipientOf row email_col ∈ st.sent_this_session →
      processRow acct email_col row st = (.skippedDuplicate, st)) ∧
    (∀ df accounts st0 rr,
      runCampaignFile df accounts email_col st0 = some rr →
      (addrsWith .sent (allOutcomes rr)).Nodup) ∧
    (∀ df accounts st0 rr,
      runCampaignApp df accounts email_col st0 = some rr →
      (addrsWith .sent (allOutcomes rr)).Nodup) := by
  refine ⟨?_, ?_, ?_⟩
  · intro acct row st hwf hmem
    have hne : ¬ recipientOf row email_col = "" := fun he => hwf (he ▸ hmem)
    simp [processRow, hne, hmem]
  · intro df accounts st0 rr h
    rcases df with - | drows
    · exact absurd h (by simp [runCampaignFile])
    · rcases haccs : accounts with - | ⟨a, l⟩
      · rw [haccs] at h
        exact absurd h (by simp [runCampaignFile])
      · rw [haccs] at h
        exact (runCampaignFile_spec drows (a :: l) email_col st0 rr (by simp) h).2.2.2.1
  · intro df accounts st0 rr h
    rcases df with - | drows
    · exact absurd h (by simp [runCampaignApp])
    · rcases haccs : accounts with - | ⟨a, l⟩
      · rw [haccs] at h
        exact absurd h (by simp [runCampaignApp])
      · rw [haccs] at h
        exact (runCampaignApp_spec drows (a :: l) email_col st0 rr (by simp) h).2.2.2.1

/-- A concrete account whose transport always works, for exercising C4. -/
def acctC4 : Account :=
  ⟨"sender@x.com", "pw", "smtp.gmail.com", "587", true, true, fun _ => true⟩

theorem C4_dedup_ledger_witness :
    processRow acctC4 "email" [("email", "x@y.com")] ⟨["x@y.com"], 0, 1⟩ =
      (.skippedDuplicate, ⟨["x@y.com"], 0, 1⟩) :=
  (C4_dedup_ledger "email").1 acctC4 [("email", "x@y.com")] ⟨["x@y.com"], 0, 1⟩
    (by decide) (by decide)

/-! Claim C5 concerns two consecutive runs in one Streamlit session. -/

/-- A concrete account whose transport always works, for exercising C5. -/
def acctC5 : Account :=
  ⟨"sender@x.com", "pw", "smtp.gmail.com", "587", true, true, fun _ => true⟩

/-- The uploaded data for C5: one recipient. -/
def dfC5 : Option (List Row) := some [[("email", "x@y.com")]]

/-- First press of the send button in a fresh session. -/
def run1C5 : Option RunResult := runCampaignApp dfC5 [acctC5] "email" initSession

/-- The session state the first run leaves behind. -/
def st1C5 : SessionState :=
  match run1C5 with
  | some rr => rr.state
  | none => initSession

/-- Second press of the send button in the same session, same data. -/
def run2C5 : Option RunResult := runCampaignApp dfC5 [acctC5] "email" st1C5

/-- Claim C5 evaluated on the code: the first run sends to `x@y.com`, but
a second run in the same session starts with the dedup set still holding
`x@y.com` (the button handler resets `emails_sent` but never resets
`sent_this_session`), so the first occurrence of the address in the new
run is skipped as a duplicate and nothing is sent — the ledger's lifetime
is the Streamlit session, not the run. -/
theorem C5_ledger_not_reset_between_runs :
    (run1C5.map allOutcomes) = some [("x@y.com", .sent)] ∧
    (run1C5.map (fun rr => rr.state.sent_this_session)) = some ["x@y.com"] ∧
    st1C5.sent_this_session = ["x@y.com"] ∧
    (run2C5.map allOutcomes) = some [("x@y.com", .skippedDuplicate)] ∧
    (run2C5.map (fun rr => rr.total_sent)) = some 0 ∧
    (run2C5.map (fun rr => rr.state.emails_sent)) = some 0 := by
  refine ⟨?_, ?_, ?_, ?_, ?_, ?_⟩ <;> rfl

/-! Claim C6 concerns a sender whose SMTP setup fails. -/

/-- A sender whose connection attempt (`smtplib.SMTP`) raises. -/
def badC6 : Account := ⟨"bad@x.com", "pw", "smtp.gmail.com", "587", false, true, fun _ => true⟩

/-- Two senders whose transport always works. -/
def okC6a : Account := ⟨"ok1@x.com", "pw", "smtp.gmail.com", "587", true, true, fun _ => true⟩

def okC6b : Account := ⟨"ok2@x.com", "pw", "smtp.gmail.com", "587", true, true, fun _ => true⟩

/-- Three recipients, one per sender bucket. -/
def dfC6 : Option (List Row) :=
  some [[("email", "a@x.com")], [("email", "b@x.com")], [("email", "c@x.com")]]

/-- Two recipients, for the two-sender scenario. -/
def dfC6b : Option (List Row) := some [[("email", "a@x.com")], [("email", "b@x.com")]]

/-- `app.py` run with the failing sender first out of three. -/
def runC6App : Option RunResult := runCampaignApp dfC6 [badC6, okC6a, okC6b] "email" initSession

/-- `app.py` run matching the spec scenario: sender 0 fine, sender 1's
connect throws. -/
def runC6App2 : Option RunResult := runCampaignApp dfC6b [okC6a, badC6] "email" initSession

/-- `file.py` run with the failing sender first out of three. -/
def runC6File : Option RunResult := runCampaignFile dfC6 [badC6, okC6a, okC6b] "email" initSession

/-- Claim C6 counterexample, on `app.py`: with three senders and sender 0's
connect failing, only one per-sender result exists, nothing at all is
sent (senders 1 and 2 are never driven), and the closing summary is not
reached; and even in the spec's own two-sender scenario (sender 1 fails)
sender 0's sends happen but no final summary is produced. -/
theorem C6_counterexample :
    (runC6App.map (fun rr => rr.perSender.length)) = some 1 ∧
    (runC6App.map allOutcomes) = some [] ∧
    (runC6App.map (fun rr => rr.state.sent_this_session)) = some [] ∧
    (runC6App.map (fun rr => rr.summaryShown)) = some false ∧
    (runC6App2.map allOutcomes) = some [("a@x.com", .sent)] ∧
    (runC6App2.map (fun rr => rr.summaryShown)) = some false := by
  exact ⟨rfl, rfl, rfl, rfl, rfl, rfl⟩

/-- Claim C6 amended: in `file.py` the claim holds — a sender whose setup
fails has its whole batch abandoned (no outcomes, state untouched, no
exception escapes) while every sender still gets its per-sender result
and the summary is reached; concretely, with sender 0 of three failing,
the other two senders' batches complete and their sends are preserved.
In `app.py`, the setup failure escapes the batch call (`aborted`), so the
run stops there: earlier senders' completed sends stand, but later
senders are never driven and no summary is produced. -/
theorem C6_failure_isolation (email_col : String) (acct : Account)
    (rows : List Row) (st : SessionState)
    (hbad : acct.connectOk = false ∨ acct.authOk = false) :
    ((sendBatchFile acct rows email_col st).outcomes = [] ∧
     (sendBatchFile acct rows email_col st).state = st ∧
     (sendBatchFile acct rows email_col st).aborted = false) ∧
    (∀ df accounts st0 rr, runCampaignFile df accounts email_col st0 = some rr →
      rr.perSender.length = accounts.length ∧ rr.summaryShown = true ∧
      ∀ b ∈ rr.perSender, b.aborted = false) ∧
    ((sendBatchApp acct rows email_col st).outcomes = [] ∧
     (sendBatchApp acct rows email_col st).state = st ∧
     (sendBatchApp acct rows email_col st).aborted = true) ∧
    (runC6File.map allOutcomes) = some [("b@x.com", .sent), ("c@x.com", .sent)] ∧
    (runC6File.map (fun rr => rr.summaryShown)) = some true := by
  refine ⟨?_, ?_, ?_, rfl, rfl⟩
  · rcases hbad with hb | hb
    · simp [sendBatchFile, hb]
    · by_cases hc : acct.connectOk = true
      · simp [sendBatchFile, hc, hb]
      · simp [sendBatchFile, hc]
  · intro df accounts st0 rr h
    rcases df with - | drows
    · exact absurd h (by simp [runCampaignFile])
    · rcases haccs : accounts with - | ⟨a, l⟩
      · rw [haccs] at h
        exact absurd h (by simp [runCampaignFile])
      · rw [haccs] at h
        obtain ⟨-, -, -, -, -, -, g7, -, g9, g10⟩ :=
          runCampaignFile_spec drows (a :: l) email_col st0 rr (by simp) h
        exact ⟨g7, g9, g10⟩
  · rcases hbad with hb | hb
    · simp [sendBatchApp, hb]
    · by_cases hc : acct.connectOk = true
      · simp [sendBatchApp, hc, hb]
      · simp [sendBatchApp, hc]

theorem C6_failure_isolation_witness :
    (sendBatchFile badC6 [] "email" initSession).outcomes = [] ∧
    (sendBatchFile badC6 [] "email" initSession).state = initSession ∧
    (sendBatchFile badC6 [] "email" initSession).aborted = false :=
  (C6_failure_isolation "email" badC6 [] initSession (Or.inl rfl)).1

/-! Claim C7 concerns the configuration gate of `main`. -/

/-- An always-working sender for the C7 scenario. -/
def okC7 : Account := ⟨"ok@x.com", "pw", "smtp.gmail.com", "587", true, true, fun _ => true⟩

/-- `app.py` run with a loaded dataframe that has zero rows. -/
def runC7 : Option RunResult := runCampaignApp (some []) [okC7] "email" initSession

/-- Claim C7 counterexample: an empty recipient list is not rejected as a
configuration error — the `app.py` run proceeds, opens one SMTP session
for its sender, and completes with no outcomes, and the progress total is
set to `0` (the state is touched). -/
theorem C7_counterexample :
    runC7.isSome = true ∧
    (runC7.map (fun rr => (rr.perSender.map (fun b => b.opened)).sum)) = some 1 ∧
    (runC7.map allOutcomes) = some [] ∧
    (runC7.map (fun rr => rr.state.total_emails)) = some 0 := by
  exact ⟨rfl, rfl, rfl, rfl⟩

theorem allocate_nil (n : Nat) :
    allocate ([] : List Row) n = List.replicate n [] := rfl

/-- The per-sender record an empty (skipped) bucket contributes. -/
def zeroBatch (st : SessionState) : BatchResult := ⟨0, [], st, 0, 0, false⟩

theorem driveFile_empty_buckets (email_col : String) :
    ∀ (accounts : List Account) (st : SessionState),
      driveFile email_col (accounts.zip (List.replicate accounts.length ([] : List Row))) st =
        (accounts.map (fun _ => zeroBatch st), st) := by
  intro accounts
  induction accounts with
  | nil => intro st; rfl
  | cons a l ih =>
      intro st
      show driveFile email_col ((a, ([] : List Row)) ::
        l.zip (List.replicate l.length ([] : List Row))) st = _
      rw [show driveFile email_col ((a, ([] : List Row)) ::
          l.zip (List.replicate l.length ([] : List Row))) st =
        (zeroBatch st ::
          (driveFile email_col (l.zip (List.replicate l.length ([] : List Row))) st).1,
          (driveFile email_col (l.zip (List.replicate l.length ([] : List Row))) st).2)
        from rfl]
      rw [ih st]
      rfl

/-- Claim C7 amended: the gate rejects only a missing dataframe or an
empty sender pool (in both variants, before anything else happens); an
empty recipient list is NOT rejected: the run proceeds with the progress
counter reset and the total set to `0`; in `file.py` empty buckets are
skipped so no transport is opened and nothing is sent (ledger unchanged),
while in `app.py` one SMTP session per sender is still opened. -/
theorem C7_config_gate (email_col : String) :
    (∀ accounts st0, runCampaignApp none accounts email_col st0 = none) ∧
    (∀ df st0, runCampaignApp df [] email_col st0 = none) ∧
    (∀ accounts st0, runCampaignFile none accounts email_col st0 = none) ∧
    (∀ df st0, runCampaignFile df [] email_col st0 = none) ∧
    (∀ accounts st0 rr,
      runCampaignFile (some []) accounts email_col st0 = some rr →
      (rr.perSender.map (fun b => b.opened)).sum = 0 ∧
      allOutcomes rr = [] ∧
      rr.state.sent_this_session = st0.sent_this_session ∧
      rr.state.emails_sent = 0 ∧
      rr.state.total_emails = 0) ∧
    (runC7.map (fun rr => (rr.perSender.map (fun b => b.opened)).sum)) = some 1 := by
  refine ⟨?_, ?_, ?_, ?_, ?_, rfl⟩
  · intro accounts st0; rfl
  · intro df st0
    rcases df with - | drows
    · rfl
    · rfl
  · intro accounts st0; rfl
  · intro df st0
    rcases df with - | drows
    · rfl
    · rfl
  · intro accounts st0 rr h
    rcases haccs : accounts with - | ⟨a, l⟩
    · rw [haccs] at h
      exact absurd h (by simp [runCampaignFile])
    · rw [haccs] at h
      have hne : (a :: l).isEmpty = false := rfl
      obtain ⟨g1, g2, g3, -, -, g6, -, -, -, -⟩ :=
        runCampaignFile_spec [] (a :: l) email_col st0 rr (by simp) h
      have hlen0 : (validRows ([] : List Row) email_col).length = 0 := rfl
      have hout : allOutcomes rr = [] := by
        rw [hlen0] at g6
        exact List.length_eq_zero.mp (Nat.le_zero.mp g6)
      have hper : rr.perSender =
          (a :: l).map (fun _ => zeroBatch { st0 with total_emails := 0, emails_sent := 0 }) := by
        have h2 := h
        simp only [runCampaignFile, hne, Bool.false_eq_true, if_false,
          Option.some.injEq] at h2
        rw [← h2]
        show (driveFile email_col
          ((a :: l).zip (List.replicate (a :: l).length ([] : List Row)))
          { st0 with total_emails := 0, emails_sent := 0 }).1 = _
        rw [driveFile_empty_buckets]
      refine ⟨?_, hout, ?_, ?_, ?_⟩
      · rw [hper]
        simp [zeroBatch]
      · rw [g3, hout]
        simp [addrsWith]
      · rw [g2, hout]
        simp [addrsWith]
      · rw [g1, hlen0]

/-- The run result of `file.py` on an empty dataframe with one sender. -/
def rrC7File : RunResult :=
  { perSender := [zeroBatch ⟨[], 0, 0⟩]
    total_sent := 0
    summaryShown := true
    state := ⟨[], 0, 0⟩ }

theorem C7_config_gate_witness :
    (rrC7File.perSender.map (fun b => b.opened)).sum = 0 ∧
    allOutcomes rrC7File = [] ∧
    rrC7File.state.sent_this_session = initSession.sent_this_session ∧
    rrC7File.state.emails_sent = 0 ∧
    rrC7File.state.total_emails = 0 :=
  (C7_config_gate "email").2.2.2.2.1 [okC7] initSession rrC7File rfl

/-- Claim C8: the Progress Aggregator (`emails_sent`) is monotone — every
per-recipient step leaves it unchanged or adds exactly 1 — and after a
run (either variant) it equals the number of `sent` outcomes, never
exceeds the run's total recipient count, and is exactly the `total_sent`
reported by the summary. -/
theorem C8_progress_aggregator (email_col : String) :
    (∀ (acct : Account) (row : Row) (st : SessionState),
      (processRow acct email_col row st).2.emails_sent = st.emails_sent ∨
      (processRow acct email_col row st).2.emails_sent = st.emails_sent + 1) ∧
    (∀ df accounts st0 rr,
      runCampaignFile df accounts email_col st0 = some rr →
      rr.state.emails_sent = (addrsWith .sent (allOutcomes rr)).length ∧
      rr.state.emails_sent ≤ rr.state.total_emails ∧
      rr.total_sent = rr.state.emails_sent) ∧
    (∀ df accounts st0 rr,
      runCampaignApp df accounts email_col st0 = some rr →
      rr.state.emails_sent = (addrsWith .sent (allOutcomes rr)).length ∧
      rr.state.emails_sent ≤ rr.state.total_emails ∧
      rr.total_sent = rr.state.emails_sent) := by
  have haddr_le : ∀ os : List (String × DispatchOutcome),
      (addrsWith .sent os).length ≤ os.length := by
    intro os
    calc (addrsWith .sent os).length
        = (os.filter (fun p => p.2 == DispatchOutcome.sent)).length := by
          simp [addrsWith]
      _ ≤ os.length := List.length_filter_le _ _
  refine ⟨?_, ?_, ?_⟩
  · intro acct row st
    by_cases hr : recipientOf row email_col = ""
    · left; simp [processRow, hr]
    · by_cases hmem : recipientOf row email_col ∈ st.sent_this_session
      · left; simp [processRow, hr, hmem]
      · by_cases hok : acct.sendOk (recipientOf row email_col) = true
        · right; simp [processRow, hr, hmem, hok]
        · left; simp [processRow, hr, hmem, hok]
  · intro df accounts st0 rr h
    rcases df with - | drows
    · exact absurd h (by simp [runCampaignFile])
    · rcases haccs : accounts with - | ⟨a, l⟩
      · rw [haccs] at h
        exact absurd h (by simp [runCampaignFile])
      · rw [haccs] at h
        obtain ⟨g1, g2, -, -, -, g6, -, g8, -, -⟩ :=
          runCampaignFile_spec drows (a :: l) email_col st0 rr (by simp) h
        exact ⟨g2, by rw [g1, g2]; exact (haddr_le _).trans g6, by rw [g8, g2]⟩
  · intro df accounts st0 rr h
    rcases df with - | drows
    · exact absurd h (by simp [runCampaignApp])
    · rcases haccs : accounts with - | ⟨a, l⟩
      · rw [haccs] at h
        exact absurd h (by simp [runCampaignApp])
      · rw [haccs] at h
        obtain ⟨g1, g2, -, -, -, g6, g7⟩ :=
          runCampaignApp_spec drows (a :: l) email_col st0 rr (by simp) h
        exact ⟨g2, by rw [g1, g2]; exact (haddr_le _).trans g6, by rw [g7, g2]⟩

/-- A working sender and its one-recipient run, for exercising C8. -/
def acctC8 : Account :=
  ⟨"sender@x.com", "pw", "smtp.gmail.com", "587", true, true, fun _ => true⟩

/-- The run result of `file.py` on one recipient with one sender. -/
def rrC8 : RunResult :=
  { perSender := [⟨1, [("x@y.com", .sent)], ⟨["x@y.com"], 1, 1⟩, 1, 1, false⟩]
    total_sent := 1
    summaryShown := true
    state := ⟨["x@y.com"], 1, 1⟩ }

theorem C8_progress_aggregator_witness :
    rrC8.state.emails_sent = (addrsWith .sent (allOutcomes rrC8)).length ∧
    rrC8.state.emails_sent ≤ rrC8.state.total_emails ∧
    rrC8.total_sent = rrC8.state.emails_sent :=
  (C8_progress_aggregator "email").2.1 (some [[("email", "x@y.com")]]) [acctC8]
    initSession rrC8 rfl

/-! Claim C9 concerns the transport session lifecycle of one batch. -/

/-- A sender whose connection succeeds but whose `starttls`/`login`
raises. -/
def leakC9 : Account := ⟨"s@x.com", "pw", "smtp.gmail.com", "587", true, false, fun _ => true⟩

/-- Claim C9 counterexample: in `app.py`, when the connection is acquired
but authentication fails, the batch ends with the session acquired once
and released zero times — the claim's "released exactly once on every
exit path" fails. -/
theorem C9_counterexample :
    (sendBatchApp leakC9 [] "email" initSession).opened = 1 ∧
    (sendBatchApp leakC9 [] "email" initSession).closed = 0 := ⟨rfl, rfl⟩

/-- Claim C9 amended: in `file.py` every batch releases the session
exactly as many times as it acquired it (at most once, exactly once
whenever the connection was acquired), on every exit path including setup
failure.  In `app.py` the balance holds only on the fully successful
setup path and the connection-refused path; when setup fails after the
connection was acquired, the session is never released. -/
theorem C9_session_release (acct : Account) (rows : List Row) (email_col : String)
    (st : SessionState) :
    ((sendBatchFile acct rows email_col st).closed =
      (sendBatchFile acct rows email_col st).opened ∧
     (sendBatchFile acct rows email_col st).opened ≤ 1) ∧
    (acct.connectOk = true → (sendBatchFile acct rows email_col st).opened = 1) ∧
    (acct.connectOk = true → acct.authOk = true →
      (sendBatchApp acct rows email_col st).opened = 1 ∧
      (sendBatchApp acct rows email_col st).closed = 1) ∧
    (acct.connectOk = false →
      (sendBatchApp acct rows email_col st).opened = 0 ∧
      (sendBatchApp acct rows email_col st).closed = 0) ∧
    (acct.connectOk = true → acct.authOk = false →
      (sendBatchApp acct rows email_col st).opened = 1 ∧
      (sendBatchApp acct rows email_col st).closed = 0) := by
  by_cases hc : acct.connectOk = true
  · by_cases ha : acct.authOk = true
    · refine ⟨⟨?_, ?_⟩, fun _ => ?_, fun _ _ => ⟨?_, ?_⟩, fun hf => ?_, fun _ hf => ?_⟩ <;>
        simp [sendBatchFile, sendBatchApp, hc, ha] <;> simp_all
    · refine ⟨⟨?_, ?_⟩, fun _ => ?_, fun _ hf => ?_, fun hf => ?_, fun _ _ => ⟨?_, ?_⟩⟩ <;>
        simp [sendBatchFile, sendBatchApp, hc, ha] <;> simp_all
  · refine ⟨⟨?_, ?_⟩, fun hf => ?_, fun hf _ => ?_, fun _ => ⟨?_, ?_⟩, fun hf _ => ?_⟩ <;>
      simp [sendBatchFile, sendBatchApp, hc] <;> simp_all

/-- A fully working sender, for exercising C9. -/
def okC9 : Account := ⟨"s@x.com", "pw", "smtp.gmail.com", "587", true, true, fun _ => true⟩

theorem C9_session_release_witness :
    (sendBatchFile okC9 [] "email" initSession).opened = 1 ∧
    (sendBatchApp okC9 [] "email" initSession).closed = 1 :=
  ⟨(C9_session_release okC9 [] "email" initSession).2.1 rfl,
    ((C9_session_release okC9 [] "email" initSession).2.2.1 rfl rfl).2⟩

theorem allocGo_nil_buckets {α : Type} (n : Nat) :
    ∀ (rs : List α) (i : Nat), allocGo n i rs [] = [] := by
  intro rs
  induction rs with
  | nil => intro i; rfl
  | cons r rs ih =>
      intro i
      show allocGo n (i + 1) rs (([] : List (List α)).set (i % n) _) = []
      rw [show (([] : List (List α)).set (i % n)
        ((([] : List (List α)).getD (i % n) []) ++ [r])) = [] from rfl]
      exact ih (i + 1)

/-- Claim C10: `main` drops every row whose stripped address is blank
before allocating and before counting: inserting a blank-address row
anywhere in the upload leaves the kept rows, every bucket, and the run
total unchanged — the blank row occupies no bucket position — and a
blank-address row is never a member of any bucket, so no session ever
produces an outcome for it. -/
theorem C10_blank_rows_dropped (email_col : String) (rows1 rows2 : List Row)
    (blank : Row) (hblank : recipientOf blank email_col = "") :
    validRows (rows1 ++ blank :: rows2) email_col = validRows (rows1 ++ rows2) email_col ∧
    (∀ n, allocate (validRows (rows1 ++ blank :: rows2) email_col) n =
      allocate (validRows (rows1 ++ rows2) email_col) n) ∧
    (validRows (rows1 ++ blank :: rows2) email_col).length =
      (validRows (rows1 ++ rows2) email_col).length ∧
    (∀ (drows : List Row) (n j : Nat),
      blank ∉ (allocate (validRows drows email_col) n).getD j []) := by
  have hfilter : validRows (rows1 ++ blank :: rows2) email_col =
      validRows (rows1 ++ rows2) email_col := by
    have hpred : (recipientOf blank email_col != "") = false := by
      rw [hblank]; rfl
    simp [validRows, List.filter_append, List.filter_cons, hpred]
  refine ⟨hfilter, fun n => by rw [hfilter], by rw [hfilter], ?_⟩
  intro drows n j
  rcases Nat.eq_zero_or_pos n with hn | hn
  · subst hn
    rw [show allocate (validRows drows email_col) 0 =
      allocGo 0 0 (validRows drows email_col) [] from rfl]
    rw [allocGo_nil_buckets]
    simp
  · by_cases hj : j < n
    · rw [allocate_getD _ n hn j hj]
      intro hmem
      obtain ⟨p, hp, hpe⟩ := List.mem_map.mp hmem
      have hprow : p ∈ (validRows drows email_col).enum := List.mem_of_mem_filter hp
      have : blank ∈ validRows drows email_col := by
        have := List.mem_map_of_mem Prod.snd hprow
        rw [List.enum_map_snd] at this
        rwa [hpe] at this
      have hkeep := List.of_mem_filter this
      rw [hblank] at hkeep
      exact absurd hkeep (by decide)
    · rw [List.getD_eq_default]
      · simp
      · rw [allocate_length]
        omega

theorem C10_blank_rows_dropped_witness :
    validRows [[("email", "a@x.com")], [("email", "  ")]] "email" =
      validRows [[("email", "a@x.com")]] "email" :=
  (C10_blank_rows_dropped "email" [[("email", "a@x.com")]] []
    [("email", "  ")] (by decide)).1

end ColdEmailer
